import Mathlib

/-!
Shallow embedding of the task-manager repository (Python sources under
`src/`): the file-backed store of `src/3-complete/TaskManager.py`
(`TaskRepository` over an in-memory list mirrored to disk), the service
layer (`TaskService`, identical in `src/3-complete/TaskManager.py` and
`src/4-add-pg-dbms/services/TaskService.py`), the serializable data model
(`TaskModel.to_dict` / `from_dict`, both the string-dated variant of
`src/3-complete` and the datetime-dated variant of
`src/4-add-pg-dbms/models/TaskModel.py`), and the GUI store's
status-filtered search (`src/TaskManager.py`, `TaskManager.search_tasks`).

Python strings are modelled as `List Char` (`Str`); `str.strip` (with the
full `Py_UNICODE_ISSPACE` whitespace set), `str.lower` (on the ASCII
range, which is all the relevant code paths use) and `int(...)` coercion
(Unicode Nd digits, PEP 515 underscore grouping) are modelled
explicitly.  File persistence
(`save_tasks`) only mirrors the in-memory list to disk, so the store
state is the in-memory list.  The process clock is passed explicitly
(`now`).
-/

namespace TaskMgr

/-- Python strings as character lists. -/
abbrev Str := List Char

/-- The whitespace set of Python's `str.strip()` / `str.isspace()`
(CPython's `Py_UNICODE_ISSPACE`): `\t\n\x0b\x0c\r` (U+0009–U+000D), the
separators U+001C–U+001F, space, next line U+0085, no-break space U+00A0,
Ogham space mark U+1680, the typographic spaces U+2000–U+200A, line and
paragraph separators U+2028/U+2029, narrow no-break space U+202F, medium
mathematical space U+205F, and ideographic space U+3000. -/
def isPySpace (c : Char) : Bool :=
  (9 ≤ c.toNat ∧ c.toNat ≤ 13) || (28 ≤ c.toNat ∧ c.toNat ≤ 31) || c.toNat = 32 ||
    c.toNat = 0x85 || c.toNat = 0xa0 || c.toNat = 0x1680 ||
    (0x2000 ≤ c.toNat ∧ c.toNat ≤ 0x200a) || c.toNat = 0x2028 || c.toNat = 0x2029 ||
    c.toNat = 0x202f || c.toNat = 0x205f || c.toNat = 0x3000

/-- Python `str.strip()`: drop leading and trailing whitespace. -/
def pyStrip (s : Str) : Str :=
  (((s.dropWhile isPySpace).reverse).dropWhile isPySpace).reverse

/-- Python `str.lower()` on one character (ASCII range, as used by the code). -/
def lowerChar (c : Char) : Char :=
  if 65 ≤ c.toNat ∧ c.toNat ≤ 90 then Char.ofNat (c.toNat + 32) else c

/-- Python `str.lower()` (ASCII range). -/
def pyLower (s : Str) : Str := s.map lowerChar

/-- First code points of the runs of ten decimal digits (Unicode 15.0
category Nd) that Python's `int()` accepts as digits. -/
def ndRangeStarts : List Nat :=
  [0x30, 0x660, 0x6f0, 0x7c0, 0x966, 0x9e6, 0xa66, 0xae6, 0xb66, 0xbe6,
   0xc66, 0xce6, 0xd66, 0xde6, 0xe50, 0xed0, 0xf20, 0x1040, 0x1090, 0x17e0,
   0x1810, 0x1946, 0x19d0, 0x1a80, 0x1a90, 0x1b50, 0x1bb0, 0x1c40, 0x1c50,
   0xa620, 0xa8d0, 0xa900, 0xa9d0, 0xa9f0, 0xaa50, 0xabf0, 0xff10,
   0x104a0, 0x10d30, 0x11066, 0x110f0, 0x11136, 0x111d0, 0x112f0, 0x11450,
   0x114d0, 0x11650, 0x116c0, 0x11730, 0x118e0, 0x11950, 0x11c50, 0x11d50,
   0x11da0, 0x11f50, 0x16a60, 0x16ac0, 0x16b50, 0x1d7ce, 0x1d7d8, 0x1d7e2,
   0x1d7ec, 0x1d7f6, 0x1e140, 0x1e2f0, 0x1e4f0, 0x1e950, 0x1fbf0]

/-- Decimal value of a digit character as Python's `int()` accepts it
(Unicode category Nd), `none` for a non-digit. -/
def digitVal? (c : Char) : Option Nat :=
  ndRangeStarts.findSome? fun s =>
    if s ≤ c.toNat ∧ c.toNat ≤ s + 9 then some (c.toNat - s) else none

/-- Continue a digit run after at least one digit has been read: PEP 515
allows a single underscore between two digits, so after an underscore a
digit must follow, and an underscore may not end the run. -/
def parseDigitsGo (acc : Int) : Str → Option Int
  | [] => some acc
  | ['_'] => none
  | '_' :: d :: rest =>
    match digitVal? d with
    | some v => parseDigitsGo (10 * acc + v) rest
    | none => none
  | c :: rest =>
    match digitVal? c with
    | some v => parseDigitsGo (10 * acc + v) rest
    | none => none

/-- A non-empty digit run that must start with a digit (no leading
underscore), with PEP 515 grouping inside. -/
def parseDigits? : Str → Option Int
  | [] => none
  | c :: rest =>
    match digitVal? c with
    | some v => parseDigitsGo (Int.ofNat v) rest
    | none => none

/-- Python `int(s)` on a string: strips whitespace, accepts an optional
sign followed by one or more decimal digits (Unicode category Nd) with
PEP 515 single-underscore grouping between digits; raises `ValueError`
(here: `none`) otherwise. -/
def pyInt? (s : Str) : Option Int :=
  match pyStrip s with
  | '-' :: ds => (parseDigits? ds).map fun v => -v
  | '+' :: ds => parseDigits? ds
  | ds => parseDigits? ds

/-- `TaskModel` of `src/3-complete/TaskManager.py`: `created_date` is the
formatted timestamp string. -/
structure TaskModel where
  task_id : Int
  title : Str
  description : Str
  status : Str
  created_date : Str
deriving DecidableEq, Repr

/-- Dictionary produced by `TaskModel.to_dict` in `src/3-complete/TaskManager.py`. -/
structure TaskDict where
  id : Int
  title : Str
  description : Str
  status : Str
  created_date : Str
deriving DecidableEq, Repr

/-- `TaskModel.to_dict` (`src/3-complete/TaskManager.py`). -/
def to_dict (t : TaskModel) : TaskDict :=
  ⟨t.task_id, t.title, t.description, t.status, t.created_date⟩

/-- `TaskModel.from_dict` (`src/3-complete/TaskManager.py`). -/
def from_dict (d : TaskDict) : TaskModel :=
  ⟨d.id, d.title, d.description, d.status, d.created_date⟩

/-! ### TaskRepository (file-backed store, `src/3-complete/TaskManager.py`)

The repository state is the in-memory list `self.tasks`; `save_tasks`
mirrors it to disk and does not change it. -/

/-- Running maximum of `max(task.task_id for task in tasks)` starting from
the first element's id. -/
def maxIdFrom (acc : Int) : List TaskModel → Int
  | [] => acc
  | t :: ts => maxIdFrom (max acc t.task_id) ts

/-- `TaskRepository.get_next_id`: `1` on an empty store, else
`max(task.task_id for task in self.tasks) + 1`. -/
def get_next_id : List TaskModel → Int
  | [] => 1
  | t :: ts => maxIdFrom t.task_id ts + 1

/-- `TaskRepository.add_task`: build the record with the next id, status
`"Pending"` and the current clock reading, append it, persist; returns
the new store and the new record. -/
def add_task (tasks : List TaskModel) (title description now : Str) :
    List TaskModel × TaskModel :=
  let task_id := get_next_id tasks
  let task : TaskModel := ⟨task_id, title, description, "Pending".data, now⟩
  (tasks ++ [task], task)

/-- `TaskRepository.find_task_by_id`: first record with the given id, scanning
in store order. -/
def find_task_by_id (tasks : List TaskModel) (task_id : Int) : Option TaskModel :=
  match tasks with
  | [] => none
  | t :: ts => if t.task_id = task_id then some t else find_task_by_id ts task_id

/-- `TaskRepository.update_task`: replace the first record whose id matches
the argument's id; returns the new store and whether a record was replaced. -/
def update_task (tasks : List TaskModel) (task : TaskModel) :
    List TaskModel × Bool :=
  match tasks with
  | [] => ([], false)
  | t :: ts =>
    if t.task_id = task.task_id then (task :: ts, true)
    else
      let r := update_task ts task
      (t :: r.1, r.2)

/-- `TaskRepository.delete_task`: remove the first record with the given id;
returns the new store and the removed record (or `none`). -/
def delete_task (tasks : List TaskModel) (task_id : Int) :
    List TaskModel × Option TaskModel :=
  match tasks with
  | [] => ([], none)
  | t :: ts =>
    if t.task_id = task_id then (ts, some t)
    else
      let r := delete_task ts task_id
      (t :: r.1, r.2)

/-! ### TaskService (`src/3-complete/TaskManager.py`,
`src/4-add-pg-dbms/services/TaskService.py`) -/

/-- The error taxonomy raised by the service (`TaskManagerException`
messages): validation failures carry the message, not-found failures
carry the offending id (the message interpolates it). -/
inductive TaskError where
  | validation : Str → TaskError
  | notFound : Int → TaskError
deriving DecidableEq, Repr

/-- Outcome of a service call: the produced record, or the raised error. -/
inductive SvcResult where
  | ok : TaskModel → SvcResult
  | err : TaskError → SvcResult
deriving DecidableEq, Repr

/-- `TaskService.add_task`: validate, then delegate the trimmed fields to
`TaskRepository.add_task`.  Returns the resulting store state and outcome. -/
def svc_add_task (tasks : List TaskModel) (title description now : Str) :
    List TaskModel × SvcResult :=
  if title = [] ∨ pyStrip title = [] then
    (tasks, .err (.validation "Task title cannot be empty".data))
  else if 50 < title.length then
    (tasks, .err (.validation "Task title cannot exceed 50 characters".data))
  else if description = [] ∨ pyStrip description = [] then
    (tasks, .err (.validation "Task description cannot be empty".data))
  else
    let r := add_task tasks (pyStrip title) (pyStrip description) now
    (r.1, .ok r.2)

/-- `TaskService.mark_complete`: coerce the id with `int(...)`, look the
record up, set its status to `"Completed"` and persist it through
`TaskRepository.update_task`. -/
def svc_mark_complete (tasks : List TaskModel) (input : Str) :
    List TaskModel × SvcResult :=
  match pyInt? input with
  | none => (tasks, .err (.validation "Task ID must be a number".data))
  | some task_id =>
    match find_task_by_id tasks task_id with
    | none => (tasks, .err (.notFound task_id))
    | some task =>
      let task2 := { task with status := "Completed".data }
      let r := update_task tasks task2
      (r.1, .ok task2)

/-- `TaskService.delete_task`: coerce the id with `int(...)`, delegate to
`TaskRepository.delete_task`, raise not-found when nothing was removed. -/
def svc_delete_task (tasks : List TaskModel) (input : Str) :
    List TaskModel × SvcResult :=
  match pyInt? input with
  | none => (tasks, .err (.validation "Task ID must be a number".data))
  | some task_id =>
    let r := delete_task tasks task_id
    match r.2 with
    | none => (tasks, .err (.notFound task_id))
    | some task => (r.1, .ok task)

/-- `TaskService.search_tasks` (`src/3-complete/TaskManager.py`): empty or
whitespace-only keyword short-circuits to `[]`; otherwise lower-case,
strip, and filter the repository's records by substring containment in
title or description. -/
def svc_search_tasks (tasks : List TaskModel) (keyword : Str) : List TaskModel :=
  if keyword = [] ∨ pyStrip keyword = [] then []
  else
    let kw := pyStrip (pyLower keyword)
    tasks.filter (fun t =>
      decide (kw <:+: pyLower t.title) || decide (kw <:+: pyLower t.description))

/-- Number of repository calls `TaskService.search_tasks` performs: the
short-circuit branch returns before touching the repository; the other
branch calls `get_all_tasks` once. -/
def svc_search_tasks_repoCalls (keyword : Str) : Nat :=
  if keyword = [] ∨ pyStrip keyword = [] then 0 else 1

/-! ### The datetime-dated model (`src/4-add-pg-dbms/models/TaskModel.py`)

`created_date` there is a `datetime`; `to_dict` renders it with
`strftime("%Y-%m-%d %H:%M:%S")`, `from_dict` parses a string field with
`strptime` of the same format (a field that is already a `datetime`,
as delivered by the database driver, is kept as is). -/

/-- Python `datetime` at the precision the code touches. -/
structure PyDateTime where
  year : Nat
  month : Nat
  day : Nat
  hour : Nat
  minute : Nat
  second : Nat
  microsecond : Nat
deriving DecidableEq, Repr

/-- Decimal digit of `c`, or `none` when `c` is not `'0'..'9'`. -/
def charDigit? (c : Char) : Option Nat :=
  if c = '0' then some 0 else if c = '1' then some 1 else if c = '2' then some 2
  else if c = '3' then some 3 else if c = '4' then some 4 else if c = '5' then some 5
  else if c = '6' then some 6 else if c = '7' then some 7 else if c = '8' then some 8
  else if c = '9' then some 9 else none

/-- Two fixed decimal digits (`%m`, `%d`, `%H`, `%M`, `%S` as printed). -/
def parse2 (a b : Char) : Option Nat := do
  let x ← charDigit? a
  let y ← charDigit? b
  pure (10 * x + y)

/-- Four fixed decimal digits (`%Y` as printed). -/
def parse4 (a b c d : Char) : Option Nat := do
  let x ← charDigit? a
  let y ← charDigit? b
  let z ← charDigit? c
  let w ← charDigit? d
  pure (1000 * x + 100 * y + 10 * z + w)

/-- Length of a month, with the Gregorian leap rule, as `datetime`
validates it. -/
def daysInMonth (y m : Nat) : Nat :=
  if m = 2 then
    if y % 4 = 0 ∧ (y % 100 ≠ 0 ∨ y % 400 = 0) then 29 else 28
  else if m = 4 ∨ m = 6 ∨ m = 9 ∨ m = 11 then 30
  else 31

/-- `datetime.strftime("%Y-%m-%d %H:%M:%S")` (for in-range fields; the
microsecond is not rendered). -/
def strftimeDT (d : PyDateTime) : Str :=
  [Nat.digitChar (d.year / 1000 % 10), Nat.digitChar (d.year / 100 % 10),
   Nat.digitChar (d.year / 10 % 10), Nat.digitChar (d.year % 10), '-',
   Nat.digitChar (d.month / 10 % 10), Nat.digitChar (d.month % 10), '-',
   Nat.digitChar (d.day / 10 % 10), Nat.digitChar (d.day % 10), ' ',
   Nat.digitChar (d.hour / 10 % 10), Nat.digitChar (d.hour % 10), ':',
   Nat.digitChar (d.minute / 10 % 10), Nat.digitChar (d.minute % 10), ':',
   Nat.digitChar (d.second / 10 % 10), Nat.digitChar (d.second % 10)]

/-- `datetime.strptime(s, "%Y-%m-%d %H:%M:%S")`: the fixed-width shape the
format prints, validated through the `datetime` constructor's field
ranges; parsing failure (`ValueError`) is `none`.  The microsecond of the
parsed value is `0`. -/
def strptimeDT (s : Str) : Option PyDateTime :=
  match s with
  | [y1, y2, y3, y4, c1, m1, m2, c2, d1, d2, c3, h1, h2, c4, n1, n2, c5, s1, s2] =>
    if c1 = '-' ∧ c2 = '-' ∧ c3 = ' ' ∧ c4 = ':' ∧ c5 = ':' then
      match parse4 y1 y2 y3 y4, parse2 m1 m2, parse2 d1 d2,
            parse2 h1 h2, parse2 n1 n2, parse2 s1 s2 with
      | some y, some mo, some da, some h, some mi, some se =>
        if 1 ≤ y ∧ y ≤ 9999 ∧ 1 ≤ mo ∧ mo ≤ 12 ∧ 1 ≤ da ∧ da ≤ daysInMonth y mo ∧
            h ≤ 23 ∧ mi ≤ 59 ∧ se ≤ 59 then
          some ⟨y, mo, da, h, mi, se, 0⟩
        else none
      | _, _, _, _, _, _ => none
    else none
  | _ => none

/-- `TaskModel` of `src/4-add-pg-dbms/models/TaskModel.py`: `created_date`
is a `datetime`. -/
structure PgTaskModel where
  task_id : Int
  title : Str
  description : Str
  status : Str
  created_date : PyDateTime
deriving DecidableEq, Repr

/-- Dictionary handled by the pg-variant `to_dict`/`from_dict`: the
`created_date` field is either a rendered string or a `datetime`
(as delivered by the database driver). -/
structure PgTaskDict where
  id : Int
  title : Str
  description : Str
  status : Str
  created_date : Str ⊕ PyDateTime
deriving DecidableEq, Repr

/-- `TaskModel.to_dict` (`src/4-add-pg-dbms/models/TaskModel.py`): renders
the `datetime` with `strftime("%Y-%m-%d %H:%M:%S")`. -/
def pg_to_dict (t : PgTaskModel) : PgTaskDict :=
  ⟨t.task_id, t.title, t.description, t.status, Sum.inl (strftimeDT t.created_date)⟩

/-- `TaskModel.from_dict` (`src/4-add-pg-dbms/models/TaskModel.py`): a string
`created_date` is parsed with `strptime` (raising, i.e. `none`, on
failure); a `datetime` one is kept. -/
def pg_from_dict (d : PgTaskDict) : Option PgTaskModel :=
  match d.created_date with
  | Sum.inl s => (strptimeDT s).map fun dt => ⟨d.id, d.title, d.description, d.status, dt⟩
  | Sum.inr dt => some ⟨d.id, d.title, d.description, d.status, dt⟩

/-! ### The GUI store's search (`src/TaskManager.py`)

Tasks there are dictionaries with the same five fields; `search_tasks`
lower-cases the keyword (no strip), collects in store order every task
whose lowered title or description contains it, and applies the optional
exact status filter. -/

/-- Loop body of `TaskManager.search_tasks` (`src/TaskManager.py`): `kw` is
the already-lowered keyword. -/
def tm_search_loop (kw : Str) (status_filter : Option Str) :
    List TaskModel → List TaskModel
  | [] => []
  | t :: ts =>
    if kw <:+: pyLower t.title ∨ kw <:+: pyLower t.description then
      if status_filter = none ∨ status_filter = some t.status then
        t :: tm_search_loop kw status_filter ts
      else tm_search_loop kw status_filter ts
    else tm_search_loop kw status_filter ts

/-- `TaskManager.search_tasks` (`src/TaskManager.py`). -/
def tm_search_tasks (tasks : List TaskModel) (keyword : Str)
    (status_filter : Option Str) : List TaskModel :=
  tm_search_loop (pyLower keyword) status_filter tasks

/-- The spec's description of a search hit: the record's title or
description contains the keyword as a case-insensitive substring, and
the record passes the optional exact status filter. -/
def matchesSpec (keyword : Str) (status_filter : Option Str) (t : TaskModel) : Prop :=
  (pyLower keyword <:+: pyLower t.title ∨ pyLower keyword <:+: pyLower t.description) ∧
    (status_filter = none ∨ status_filter = some t.status)

instance (keyword : Str) (status_filter : Option Str) (t : TaskModel) :
    Decidable (matchesSpec keyword status_filter t) := by
  unfold matchesSpec; infer_instance

/-! ### Character and string lemmas -/

theorem toNat_ofNat_valid (n : Nat) (h : n < 55296) : (Char.ofNat n).toNat = n := by
  have hv : n.isValidChar := Or.inl h
  simp [Char.ofNat, hv, Char.ofNatAux, Char.toNat, UInt32.toNat]

theorem lowerChar_of_space (c : Char) (h : isPySpace c = true) : lowerChar c = c := by
  unfold isPySpace at h
  simp only [Bool.or_eq_true, decide_eq_true_eq] at h
  unfold lowerChar
  rw [if_neg (by omega)]

theorem lowerChar_lowerChar (c : Char) : lowerChar (lowerChar c) = lowerChar c := by
  by_cases h : 65 ≤ c.toNat ∧ c.toNat ≤ 90
  · have h1 : lowerChar c = Char.ofNat (c.toNat + 32) := by
      unfold lowerChar; rw [if_pos h]
    have ht : (Char.ofNat (c.toNat + 32)).toNat = c.toNat + 32 :=
      toNat_ofNat_valid _ (by omega)
    rw [h1]
    unfold lowerChar
    rw [if_neg (by rw [ht]; omega)]
  · have h1 : lowerChar c = c := by unfold lowerChar; rw [if_neg h]
    rw [h1, h1]

theorem pyLower_append (a b : Str) : pyLower (a ++ b) = pyLower a ++ pyLower b :=
  List.map_append lowerChar a b

theorem pyLower_idem (s : Str) : pyLower (pyLower s) = pyLower s := by
  unfold pyLower
  rw [List.map_map]
  exact List.map_congr_left fun c _ => lowerChar_lowerChar c

theorem pyLower_space (w : Str) (h : ∀ c ∈ w, isPySpace c = true) :
    ∀ c ∈ pyLower w, isPySpace c = true := by
  intro c hc
  rcases List.mem_map.mp hc with ⟨a, ha, rfl⟩
  rw [lowerChar_of_space a (h a ha)]
  exact h a ha

theorem dropWhile_append_of_all {α : Type} (p : α → Bool) (w s : List α)
    (h : ∀ c ∈ w, p c = true) : (w ++ s).dropWhile p = s.dropWhile p := by
  induction w with
  | nil => rfl
  | cons a w ih =>
    rw [List.cons_append, List.dropWhile_cons, if_pos (h a (by simp))]
    exact ih fun c hc => h c (by simp [hc])

theorem dropWhile_append_of_ne_nil {α : Type} (p : α → Bool) (s w : List α)
    (h : s.dropWhile p ≠ []) : (s ++ w).dropWhile p = s.dropWhile p ++ w := by
  induction s with
  | nil => simp at h
  | cons a s ih =>
    by_cases hp : p a
    · rw [List.dropWhile_cons, if_pos hp] at h
      rw [List.cons_append, List.dropWhile_cons, if_pos hp, List.dropWhile_cons, if_pos hp]
      exact ih h
    · rw [List.cons_append, List.dropWhile_cons, if_neg hp, List.dropWhile_cons, if_neg hp,
        List.cons_append]

theorem pyStrip_append_left (w s : Str) (h : ∀ c ∈ w, isPySpace c = true) :
    pyStrip (w ++ s) = pyStrip s := by
  unfold pyStrip
  rw [dropWhile_append_of_all _ w s h]

theorem pyStrip_append_right (s w : Str) (h : ∀ c ∈ w, isPySpace c = true) :
    pyStrip (s ++ w) = pyStrip s := by
  unfold pyStrip
  by_cases hs : s.dropWhile isPySpace = []
  · have h2 : (s ++ w).dropWhile isPySpace = [] := by
      rw [List.dropWhile_eq_nil_iff] at hs ⊢
      intro x hx
      rcases List.mem_append.mp hx with h' | h'
      · exact hs x h'
      · exact h x h'
    rw [hs, h2]
  · rw [dropWhile_append_of_ne_nil _ s w hs, List.reverse_append,
      dropWhile_append_of_all _ w.reverse _ fun c hc => h c (List.mem_reverse.mp hc)]

theorem pyStrip_decomp (s : Str) :
    ∃ u v, (∀ c ∈ u, isPySpace c = true) ∧ (∀ c ∈ v, isPySpace c = true) ∧
      s = u ++ pyStrip s ++ v := by
  refine ⟨s.takeWhile isPySpace,
    (((s.dropWhile isPySpace).reverse).takeWhile isPySpace).reverse, ?_, ?_, ?_⟩
  · intro c hc; exact List.mem_takeWhile_imp hc
  · intro c hc; exact List.mem_takeWhile_imp (List.mem_reverse.mp hc)
  · conv_lhs => rw [← List.takeWhile_append_dropWhile (p := isPySpace) (l := s)]
    rw [List.append_assoc]
    congr 1
    conv_lhs => rw [← List.reverse_reverse (s.dropWhile isPySpace),
      ← List.takeWhile_append_dropWhile (p := isPySpace)
        (l := (s.dropWhile isPySpace).reverse)]
    rw [List.reverse_append]
    rfl

theorem pyStrip_pad (u s v : Str) (hu : ∀ c ∈ u, isPySpace c = true)
    (hv : ∀ c ∈ v, isPySpace c = true) : pyStrip (u ++ s ++ v) = pyStrip s := by
  rw [List.append_assoc, pyStrip_append_left u _ hu, pyStrip_append_right s v hv]

theorem pyStrip_idem (s : Str) : pyStrip (pyStrip s) = pyStrip s := by
  obtain ⟨u, v, hu, hv, hs⟩ := pyStrip_decomp s
  conv_rhs => rw [hs, pyStrip_pad u _ v hu hv]

/-! ### Repository lemmas -/

theorem le_maxIdFrom (ts : List TaskModel) (acc : Int) : acc ≤ maxIdFrom acc ts := by
  induction ts generalizing acc with
  | nil => exact le_refl acc
  | cons t ts ih =>
    calc acc ≤ max acc t.task_id := le_max_left _ _
    _ ≤ maxIdFrom (max acc t.task_id) ts := ih _
    _ = maxIdFrom acc (t :: ts) := rfl

theorem maxIdFrom_mem (ts : List TaskModel) (acc : Int) :
    maxIdFrom acc ts = acc ∨ maxIdFrom acc ts ∈ ts.map fun t => t.task_id := by
  induction ts generalizing acc with
  | nil => exact Or.inl rfl
  | cons t ts ih =>
    rcases ih (max acc t.task_id) with h | h
    · rcases max_choice acc t.task_id with h2 | h2
      · exact Or.inl (by rw [maxIdFrom, h, h2])
      · refine Or.inr ?_
        rw [List.map_cons, maxIdFrom, h, h2]
        exact List.mem_cons_self _ _
    · exact Or.inr (by rw [List.map_cons]; exact List.mem_cons_of_mem _ h)

theorem maxIdFrom_ge (ts : List TaskModel) (acc : Int) (u : TaskModel) (hu : u ∈ ts) :
    u.task_id ≤ maxIdFrom acc ts := by
  induction ts generalizing acc with
  | nil => cases hu
  | cons t ts ih =>
    rcases List.mem_cons.mp hu with rfl | h
    · calc u.task_id ≤ max acc u.task_id := le_max_right _ _
      _ ≤ maxIdFrom (max acc u.task_id) ts := le_maxIdFrom _ _
      _ = maxIdFrom acc (u :: ts) := rfl
    · exact ih _ h

theorem get_next_id_gt (ts : List TaskModel) (u : TaskModel) (hu : u ∈ ts) :
    u.task_id < get_next_id ts := by
  cases ts with
  | nil => cases hu
  | cons t ts =>
    rw [get_next_id]
    rcases List.mem_cons.mp hu with rfl | h
    · have := le_maxIdFrom ts u.task_id
      omega
    · have := maxIdFrom_ge ts t.task_id u h
      omega

theorem get_next_id_spec (ts : List TaskModel) (h : ts ≠ []) :
    (get_next_id ts - 1) ∈ (ts.map fun t => t.task_id) ∧
      ∀ u ∈ ts, u.task_id ≤ get_next_id ts - 1 := by
  cases ts with
  | nil => exact absurd rfl h
  | cons t ts =>
    constructor
    · rw [get_next_id, Int.add_sub_cancel]
      rcases maxIdFrom_mem ts t.task_id with h1 | h1
      · rw [h1, List.map_cons]; exact List.mem_cons_self _ _
      · rw [List.map_cons]; exact List.mem_cons_of_mem _ h1
    · intro u hu
      have := get_next_id_gt (t :: ts) u hu
      omega

theorem find_eq_none (ts : List TaskModel) (i : Int) (h : ∀ u ∈ ts, u.task_id ≠ i) :
    find_task_by_id ts i = none := by
  induction ts with
  | nil => rfl
  | cons t ts ih =>
    rw [find_task_by_id, if_neg (h t (List.mem_cons_self _ _))]
    exact ih fun u hu => h u (List.mem_cons_of_mem _ hu)

theorem find_append (a b : List TaskModel) (i : Int) (ha : find_task_by_id a i = none) :
    find_task_by_id (a ++ b) i = find_task_by_id b i := by
  induction a with
  | nil => rfl
  | cons t ts ih =>
    rw [find_task_by_id] at ha
    by_cases h : t.task_id = i
    · rw [if_pos h] at ha; cases ha
    · rw [if_neg h] at ha
      rw [List.cons_append, find_task_by_id, if_neg h]
      exact ih ha

theorem find_some_id (ts : List TaskModel) (i : Int) (t : TaskModel)
    (h : find_task_by_id ts i = some t) : t.task_id = i := by
  induction ts with
  | nil => cases h
  | cons a ts ih =>
    rw [find_task_by_id] at h
    by_cases ha : a.task_id = i
    · rw [if_pos ha] at h; cases h; exact ha
    · rw [if_neg ha] at h; exact ih h

theorem find_update (ts : List TaskModel) (t2 : TaskModel) (i : Int)
    (hid : t2.task_id = i) (t : TaskModel) (h : find_task_by_id ts i = some t) :
    find_task_by_id (update_task ts t2).1 i = some t2 := by
  induction ts with
  | nil => cases h
  | cons a ts ih =>
    rw [find_task_by_id] at h
    by_cases ha : a.task_id = i
    · rw [update_task, if_pos (by rw [ha, hid]), find_task_by_id, if_pos hid]
    · rw [if_neg ha] at h
      rw [update_task, if_neg (by rw [hid]; exact ha), find_task_by_id, if_neg ha]
      exact ih h

theorem update_self (ts : List TaskModel) (i : Int) (t : TaskModel)
    (h : find_task_by_id ts i = some t) : (update_task ts t).1 = ts := by
  induction ts with
  | nil => cases h
  | cons a ts ih =>
    rw [find_task_by_id] at h
    by_cases ha : a.task_id = i
    · rw [if_pos ha] at h
      cases h
      rw [update_task, if_pos rfl]
    · rw [if_neg ha] at h
      have hti : t.task_id = i := find_some_id ts i t h
      rw [update_task, if_neg (by rw [hti]; exact ha)]
      show a :: (update_task ts t).1 = a :: ts
      rw [ih h]

theorem delete_of_find_none (ts : List TaskModel) (i : Int)
    (h : find_task_by_id ts i = none) : delete_task ts i = (ts, none) := by
  induction ts with
  | nil => rfl
  | cons t ts ih =>
    rw [find_task_by_id] at h
    by_cases ht : t.task_id = i
    · rw [if_pos ht] at h; cases h
    · rw [if_neg ht] at h
      rw [delete_task, if_neg ht, ih h]

theorem add_ids (ts : List TaskModel) (title description now : Str) :
    (add_task ts title description now).1.map (fun t => t.task_id) =
      (ts.map fun t => t.task_id) ++ [get_next_id ts] := by
  simp [add_task]

theorem update_ids (ts : List TaskModel) (task : TaskModel) :
    (update_task ts task).1.map (fun t => t.task_id) = ts.map fun t => t.task_id := by
  induction ts with
  | nil => rfl
  | cons t ts ih =>
    rw [update_task]
    by_cases h : t.task_id = task.task_id
    · rw [if_pos h, List.map_cons, List.map_cons, h]
    · rw [if_neg h, List.map_cons, List.map_cons, ih]

theorem delete_sublist (ts : List TaskModel) (i : Int) :
    List.Sublist (delete_task ts i).1 ts := by
  induction ts with
  | nil => exact List.Sublist.refl []
  | cons t ts ih =>
    rw [delete_task]
    by_cases h : t.task_id = i
    · rw [if_pos h]; exact List.sublist_cons_self t ts
    · rw [if_neg h]; exact ih.cons₂ t

/-! ### The id-uniqueness invariant -/

/-- At most one record per id: the stored id sequence has no duplicate. -/
def idsNodup (ts : List TaskModel) : Prop := (ts.map fun t => t.task_id).Nodup

/-- Store states reachable from the empty store through the repository's
mutating operations. -/
inductive Reachable : List TaskModel → Prop where
  | empty : Reachable []
  | add (ts : List TaskModel) (title description now : Str) :
      Reachable ts → Reachable (add_task ts title description now).1
  | update (ts : List TaskModel) (task : TaskModel) :
      Reachable ts → Reachable (update_task ts task).1
  | delete (ts : List TaskModel) (i : Int) :
      Reachable ts → Reachable (delete_task ts i).1

theorem add_nodup (ts : List TaskModel) (title description now : Str)
    (h : idsNodup ts) : idsNodup (add_task ts title description now).1 := by
  unfold idsNodup at h ⊢
  rw [add_ids, List.nodup_append]
  refine ⟨h, List.nodup_singleton _, ?_⟩
  intro a ha hb
  rcases List.mem_map.mp ha with ⟨u, hu, rfl⟩
  rcases List.mem_singleton.mp hb with h2
  exact absurd h2 (ne_of_lt (get_next_id_gt ts u hu))

theorem update_nodup (ts : List TaskModel) (task : TaskModel)
    (h : idsNodup ts) : idsNodup (update_task ts task).1 := by
  unfold idsNodup at h ⊢
  rw [update_ids]
  exact h

theorem delete_nodup (ts : List TaskModel) (i : Int)
    (h : idsNodup ts) : idsNodup (delete_task ts i).1 := by
  unfold idsNodup at h ⊢
  exact List.Nodup.sublist ((delete_sublist ts i).map fun t => t.task_id) h

theorem reachable_nodup (ts : List TaskModel) (h : Reachable ts) : idsNodup ts := by
  induction h with
  | empty => exact List.nodup_nil
  | add ts title description now _ ih => exact add_nodup ts title description now ih
  | update ts task _ ih => exact update_nodup ts task ih
  | delete ts i _ ih => exact delete_nodup ts i ih

/-! ### Timestamp round-trip lemmas -/

theorem charDigit?_digitChar (d : Nat) (h : d < 10) :
    charDigit? (Nat.digitChar d) = some d := by
  interval_cases d <;> rfl

theorem parse2_digits (n : Nat) (h : n < 100) :
    parse2 (Nat.digitChar (n / 10 % 10)) (Nat.digitChar (n % 10)) = some n := by
  have ha := charDigit?_digitChar (n / 10 % 10) (by omega)
  have hb := charDigit?_digitChar (n % 10) (by omega)
  simp only [parse2, ha, hb, Option.bind_eq_bind, Option.some_bind, Option.pure_def,
    Option.some.injEq]
  omega

theorem parse4_digits (n : Nat) (h : n < 10000) :
    parse4 (Nat.digitChar (n / 1000 % 10)) (Nat.digitChar (n / 100 % 10))
      (Nat.digitChar (n / 10 % 10)) (Nat.digitChar (n % 10)) = some n := by
  have ha := charDigit?_digitChar (n / 1000 % 10) (by omega)
  have hb := charDigit?_digitChar (n / 100 % 10) (by omega)
  have hc := charDigit?_digitChar (n / 10 % 10) (by omega)
  have hd := charDigit?_digitChar (n % 10) (by omega)
  simp only [parse4, ha, hb, hc, hd, Option.bind_eq_bind, Option.some_bind, Option.pure_def,
    Option.some.injEq]
  omega

/-- The validity envelope of a `datetime` as the code's round trip needs it:
`datetime` field ranges (with a four-digit year, which `%Y` renders
zero-padded) and second resolution. -/
def validDT (d : PyDateTime) : Prop :=
  1000 ≤ d.year ∧ d.year ≤ 9999 ∧ 1 ≤ d.month ∧ d.month ≤ 12 ∧
    1 ≤ d.day ∧ d.day ≤ daysInMonth d.year d.month ∧
    d.hour ≤ 23 ∧ d.minute ≤ 59 ∧ d.second ≤ 59 ∧ d.microsecond = 0

theorem strptime_strftime (d : PyDateTime) (h : validDT d) :
    strptimeDT (strftimeDT d) = some d := by
  obtain ⟨y, mo, da, ho, mi, se, mic⟩ := d
  obtain ⟨h1, h2, h3, h4, h5, h6, h7, h8, h9, h10⟩ := h
  simp only at h1 h2 h3 h4 h5 h6 h7 h8 h9 h10
  subst h10
  have p4 : parse4 (Nat.digitChar (y / 1000 % 10)) (Nat.digitChar (y / 100 % 10))
      (Nat.digitChar (y / 10 % 10)) (Nat.digitChar (y % 10)) = some y :=
    parse4_digits y (by omega)
  have pmo := parse2_digits mo (by omega)
  have hdm : daysInMonth y mo ≤ 31 := by unfold daysInMonth; split_ifs <;> omega
  have pda := parse2_digits da (by omega)
  have pho := parse2_digits ho (by omega)
  have pmi := parse2_digits mi (by omega)
  have pse := parse2_digits se (by omega)
  have hy : 1 ≤ y := by omega
  simp [strftimeDT, strptimeDT, p4, pmo, pda, pho, pmi, pse,
    hy, h2, h3, h4, h5, h6, h7, h8, h9]

/-! ### Search lemmas -/

theorem tm_search_loop_eq_filter (kw : Str) (f : Option Str) (ts : List TaskModel) :
    tm_search_loop kw f ts = ts.filter fun t =>
      decide ((kw <:+: pyLower t.title ∨ kw <:+: pyLower t.description) ∧
        (f = none ∨ f = some t.status)) := by
  induction ts with
  | nil => rfl
  | cons t ts ih =>
    rw [tm_search_loop, List.filter_cons]
    by_cases h1 : kw <:+: pyLower t.title ∨ kw <:+: pyLower t.description
    · by_cases h2 : f = none ∨ f = some t.status
      · rw [if_pos h1, if_pos h2, ih, if_pos (by simp [h1, h2])]
      · rw [if_pos h1, if_neg h2, ih, if_neg (by simp [h1, h2])]
    · rw [if_neg h1, ih, if_neg (by simp [h1])]

theorem strip_cond_iff (s : Str) : (s = [] ∨ pyStrip s = []) ↔ pyStrip s = [] :=
  ⟨fun h => h.elim (fun h2 => by rw [h2]; rfl) id, Or.inr⟩

/-! ## The claims -/

/-- Claim C1: For every store state and every (title, description), `add_task`
assigns the new record the id (max existing id, or 0 if the store is
empty) + 1 — rendered as: on an empty store the new id is 1, and on a
non-empty store the new id minus one is an existing id that bounds every
existing id from above — this id is strictly greater than every
pre-existing id, and a subsequent `find_task_by_id` with that id returns a
record equal to the one `add_task` returned. -/
theorem add_assigns_max_plus_one_and_find_returns_it
    (ts : List TaskModel) (title description now : Str) :
    (ts = [] → (add_task ts title description now).2.task_id = 1) ∧
    (ts ≠ [] →
      ((add_task ts title description now).2.task_id - 1) ∈ (ts.map fun t => t.task_id) ∧
      ∀ u ∈ ts, u.task_id ≤ (add_task ts title description now).2.task_id - 1) ∧
    (∀ u ∈ ts, u.task_id < (add_task ts title description now).2.task_id) ∧
    find_task_by_id (add_task ts title description now).1
        (add_task ts title description now).2.task_id =
      some (add_task ts title description now).2 := by
  have hid : (add_task ts title description now).2.task_id = get_next_id ts := rfl
  refine ⟨?_, ?_, ?_, ?_⟩
  · intro h
    subst h
    rfl
  · intro h
    rw [hid]
    exact get_next_id_spec ts h
  · intro u hu
    rw [hid]
    exact get_next_id_gt ts u hu
  · show find_task_by_id (ts ++ [(add_task ts title description now).2]) _ = _
    rw [find_append _ _ _ (find_eq_none ts _ fun u hu =>
      ne_of_lt (hid ▸ get_next_id_gt ts u hu))]
    rw [find_task_by_id, if_pos rfl]

/-- Witness for C1 at a concrete store. -/
theorem add_assigns_max_plus_one_and_find_returns_it_witness :
    (⟨3, "a".data, "b".data, "Pending".data, "d".data⟩ : TaskModel) ∈
        [(⟨3, "a".data, "b".data, "Pending".data, "d".data⟩ : TaskModel)] ∧
      (add_task [⟨3, "a".data, "b".data, "Pending".data, "d".data⟩]
          ("t".data) ("e".data) ("n".data)).2.task_id = 4 ∧
      (⟨3, "a".data, "b".data, "Pending".data, "d".data⟩ : TaskModel).task_id <
        (add_task [⟨3, "a".data, "b".data, "Pending".data, "d".data⟩]
          ("t".data) ("e".data) ("n".data)).2.task_id := by
  refine ⟨by decide, by decide, ?_⟩
  exact (add_assigns_max_plus_one_and_find_returns_it
    [⟨3, "a".data, "b".data, "Pending".data, "d".data⟩]
    ("t".data) ("e".data) ("n".data)).2.2.1 _ (by decide)

/-- Claim C2: For every reachable store state at most one record with any given
id exists (`idsNodup`), and each of `add_task`, `update_task`,
`delete_task` preserves this uniqueness invariant. -/
theorem id_uniqueness_invariant (ts : List TaskModel) :
    (Reachable ts → idsNodup ts) ∧
    (idsNodup ts →
      (∀ title description now, idsNodup (add_task ts title description now).1) ∧
      (∀ task, idsNodup (update_task ts task).1) ∧
      (∀ i, idsNodup (delete_task ts i).1)) := by
  refine ⟨reachable_nodup ts, fun h => ⟨?_, ?_, ?_⟩⟩
  · intro title description now
    exact add_nodup ts title description now h
  · intro task
    exact update_nodup ts task h
  · intro i
    exact delete_nodup ts i h

/-- Witness for C2 on a concrete two-record store. -/
theorem id_uniqueness_invariant_witness :
    idsNodup (add_task [⟨1, "a".data, "b".data, "Pending".data, "d".data⟩,
      ⟨2, "c".data, "e".data, "Pending".data, "d".data⟩] ("t".data) ("u".data) ("n".data)).1 :=
  ((id_uniqueness_invariant _).2 (by unfold idsNodup; decide)).1 _ _ _

/-- Claim C5: For every valid record (non-empty title and description, status
`Pending` or `Completed`, `created_date` at second resolution),
`from_dict (to_dict r)` equals `r` field for field — for the file-backed
variant's string-dated model outright, and for the pg variant's
datetime-dated model with the `created_date` serializing and
deserializing through the same second-resolution string. -/
theorem from_dict_to_dict_roundtrip (r : TaskModel) (rp : PgTaskModel)
    (h1 : pyStrip rp.title ≠ []) (h2 : pyStrip rp.description ≠ [])
    (h3 : rp.status = "Pending".data ∨ rp.status = "Completed".data)
    (h4 : validDT rp.created_date) :
    from_dict (to_dict r) = r ∧ pg_from_dict (pg_to_dict rp) = some rp := by
  obtain ⟨a, b, c, d, e⟩ := rp
  constructor
  · rfl
  · rw [pg_to_dict, pg_from_dict]
    simp only [strptime_strftime e h4]
    rfl

/-- Witness for C5 at a concrete record. -/
theorem from_dict_to_dict_roundtrip_witness :
    pg_from_dict (pg_to_dict ⟨7, "Buy milk".data, "Get 2% milk".data, "Pending".data,
      ⟨2024, 2, 29, 9, 5, 7, 0⟩⟩) =
      some ⟨7, "Buy milk".data, "Get 2% milk".data, "Pending".data, ⟨2024, 2, 29, 9, 5, 7, 0⟩⟩ :=
  (from_dict_to_dict_roundtrip ⟨1, "a".data, "b".data, "Pending".data, "d".data⟩
    ⟨7, "Buy milk".data, "Get 2% milk".data, "Pending".data, ⟨2024, 2, 29, 9, 5, 7, 0⟩⟩
    (by decide) (by decide) (Or.inl rfl) (by unfold validDT daysInMonth; norm_num)).2

/-- Claim C3: `TaskService.add_task` fails with a validation error exactly when
the title is empty/whitespace-only, the title exceeds 50 characters, or
the description is empty/whitespace-only; on such a failure the store is
unchanged (so its size is unchanged); on success both fields are trimmed
before being delegated to `TaskRepository.add_task`. -/
theorem service_add_validation (ts : List TaskModel) (title description now : Str) :
    ((∃ msg, (svc_add_task ts title description now).2 = .err (.validation msg)) ↔
      (pyStrip title = [] ∨ 50 < title.length ∨ pyStrip description = [])) ∧
    ((pyStrip title = [] ∨ 50 < title.length ∨ pyStrip description = []) →
      (svc_add_task ts title description now).1 = ts) ∧
    (pyStrip title ≠ [] → title.length ≤ 50 → pyStrip description ≠ [] →
      svc_add_task ts title description now =
        ((add_task ts (pyStrip title) (pyStrip description) now).1,
          .ok (add_task ts (pyStrip title) (pyStrip description) now).2)) := by
  by_cases ha : pyStrip title = []
  · rw [svc_add_task, if_pos (Or.inr ha)]
    exact ⟨⟨fun _ => Or.inl ha, fun _ => ⟨_, rfl⟩⟩, fun _ => rfl, fun h _ _ => absurd ha h⟩
  · by_cases hb : 50 < title.length
    · rw [svc_add_task, if_neg ((not_congr (strip_cond_iff title)).mpr ha),
        if_pos hb]
      exact ⟨⟨fun _ => Or.inr (Or.inl hb), fun _ => ⟨_, rfl⟩⟩, fun _ => rfl,
        fun _ h _ => absurd hb (not_lt.mpr h)⟩
    · by_cases hc : pyStrip description = []
      · rw [svc_add_task, if_neg ((not_congr (strip_cond_iff title)).mpr ha),
          if_neg hb, if_pos (Or.inr hc)]
        exact ⟨⟨fun _ => Or.inr (Or.inr hc), fun _ => ⟨_, rfl⟩⟩, fun _ => rfl,
          fun _ _ h => absurd hc h⟩
      · rw [svc_add_task, if_neg ((not_congr (strip_cond_iff title)).mpr ha),
          if_neg hb, if_neg ((not_congr (strip_cond_iff description)).mpr hc)]
        refine ⟨⟨fun h => ?_, fun h => ?_⟩, fun h => ?_, fun _ _ _ => rfl⟩
        · obtain ⟨msg, hm⟩ := h
          cases hm
        · rcases h with h | h | h
          exacts [absurd h ha, absurd h (not_lt.mpr (not_lt.mp hb)), absurd h hc]
        · rcases h with h | h | h
          exacts [absurd h ha, absurd h hb, absurd h hc]

/-- Witness for C3: an empty title is rejected and persists nothing, and a
valid pair is trimmed and persisted. -/
theorem service_add_validation_witness :
    (∃ msg, (svc_add_task [] ("   ".data) ("x".data) ("n".data)).2 =
      .err (.validation msg)) ∧
    svc_add_task [] (" hi ".data) (" there ".data) ("n".data) =
      ((add_task [] (pyStrip (" hi ".data)) (pyStrip (" there ".data)) ("n".data)).1,
        .ok (add_task [] (pyStrip (" hi ".data)) (pyStrip (" there ".data)) ("n".data)).2) :=
  ⟨(service_add_validation [] ("   ".data) ("x".data) ("n".data)).1.mpr
      (Or.inl (by decide)),
    (service_add_validation [] (" hi ".data) (" there ".data) ("n".data)).2.2
      (by decide) (by decide) (by decide)⟩

/-- Claim C4, counterexample: The claim says `mark_complete`/`delete` fail with
a validation error whenever the input cannot be coerced to a *positive*
integer.  The input `"-5"` is coercible to an integer, but not to a
positive one; on the empty store the code raises the not-found error
carrying `-5`, not a validation error. -/
theorem idcoercion_positive_counterexample :
    pyInt? ("-5".data) = some (-5) ∧ ¬(0 < (-5 : Int)) ∧
    (svc_mark_complete [] ("-5".data)).2 = .err (.notFound (-5)) ∧
    (svc_delete_task [] ("-5".data)).2 = .err (.notFound (-5)) ∧
    ¬∃ msg, (svc_mark_complete [] ("-5".data)).2 = .err (.validation msg) := by
  refine ⟨by decide, by decide, by decide, by decide, ?_⟩
  rintro ⟨msg, h⟩
  rw [show (svc_mark_complete [] ("-5".data)).2 = .err (.notFound (-5)) from by decide] at h
  cases h

/-- Claim C4, amended: For every identifier input, `mark_complete` and `delete`
fail with a validation error whenever the input cannot be coerced to an
integer, and fail with the not-found error carrying the coerced id
whenever that id does not correspond to any live record; in both cases
the store is unchanged. -/
theorem idcoercion_and_notfound (ts : List TaskModel) (input : Str) :
    (pyInt? input = none →
      svc_mark_complete ts input =
        (ts, .err (.validation "Task ID must be a number".data)) ∧
      svc_delete_task ts input =
        (ts, .err (.validation "Task ID must be a number".data))) ∧
    (∀ i, pyInt? input = some i → find_task_by_id ts i = none →
      svc_mark_complete ts input = (ts, .err (.notFound i)) ∧
      svc_delete_task ts input = (ts, .err (.notFound i))) := by
  constructor
  · intro h
    constructor
    · simp only [svc_mark_complete, h]
    · simp only [svc_delete_task, h]
  · intro i hi hf
    constructor
    · simp only [svc_mark_complete, hi, hf]
    · simp only [svc_delete_task, hi, delete_of_find_none ts i hf]

/-- Witness for C4 (amended): a non-numeric input raises the validation
error; a numeric id absent from the store raises the not-found error,
also through PEP 515 grouping (`int("1_5") == 15`). -/
theorem idcoercion_and_notfound_witness :
    svc_mark_complete [] ("abc".data) =
      ([], .err (.validation "Task ID must be a number".data)) ∧
    svc_delete_task [] ("999999".data) = ([], .err (.notFound 999999)) ∧
    svc_mark_complete [] ("1_5".data) = ([], .err (.notFound 15)) :=
  ⟨((idcoercion_and_notfound [] ("abc".data)).1 (by decide)).1,
    ((idcoercion_and_notfound [] ("999999".data)).2 999999 (by decide) rfl).2,
    ((idcoercion_and_notfound [] ("1_5".data)).2 15 (by decide) rfl).1⟩

/-- Claim C6: `mark_complete` is idempotent: for the id of any live record,
calling it twice leaves the record's status `"Completed"` after each
call, and the second call raises no error. -/
theorem mark_complete_idempotent (ts : List TaskModel) (input : Str) (i : Int)
    (t : TaskModel) (h1 : pyInt? input = some i)
    (h2 : find_task_by_id ts i = some t) :
    (svc_mark_complete ts input).2 = .ok { t with status := "Completed".data } ∧
    find_task_by_id (svc_mark_complete ts input).1 i =
      some { t with status := "Completed".data } ∧
    svc_mark_complete (svc_mark_complete ts input).1 input =
      ((svc_mark_complete ts input).1, .ok { t with status := "Completed".data }) := by
  obtain ⟨a, b, c, d, e⟩ := t
  have hid : (⟨a, b, c, "Completed".data, e⟩ : TaskModel).task_id = i :=
    find_some_id ts i ⟨a, b, c, d, e⟩ h2
  have hstate : (svc_mark_complete ts input).1 =
      (update_task ts ⟨a, b, c, "Completed".data, e⟩).1 := by
    simp only [svc_mark_complete, h1, h2]
  have hres : (svc_mark_complete ts input).2 =
      .ok ⟨a, b, c, "Completed".data, e⟩ := by
    simp only [svc_mark_complete, h1, h2]
  have hfind : find_task_by_id (svc_mark_complete ts input).1 i =
      some ⟨a, b, c, "Completed".data, e⟩ := by
    rw [hstate]
    exact find_update ts _ i hid _ h2
  refine ⟨hres, hfind, ?_⟩
  generalize hgen : (svc_mark_complete ts input).1 = ts1 at hfind ⊢
  simp only [svc_mark_complete, h1, hfind]
  rw [update_self ts1 i _ hfind]

/-- Witness for C6 on a one-record store with id 1. -/
theorem mark_complete_idempotent_witness :
    (svc_mark_complete [⟨1, "a".data, "b".data, "Pending".data, "d".data⟩]
        ("1".data)).2 = .ok ⟨1, "a".data, "b".data, "Completed".data, "d".data⟩ ∧
    svc_mark_complete
        (svc_mark_complete [⟨1, "a".data, "b".data, "Pending".data, "d".data⟩]
          ("1".data)).1 ("1".data) =
      ((svc_mark_complete [⟨1, "a".data, "b".data, "Pending".data, "d".data⟩]
          ("1".data)).1,
        .ok ⟨1, "a".data, "b".data, "Completed".data, "d".data⟩) :=
  ⟨(mark_complete_idempotent [⟨1, "a".data, "b".data, "Pending".data, "d".data⟩]
      ("1".data) 1 ⟨1, "a".data, "b".data, "Pending".data, "d".data⟩
      (by decide) (by rfl)).1,
    (mark_complete_idempotent [⟨1, "a".data, "b".data, "Pending".data, "d".data⟩]
      ("1".data) 1 ⟨1, "a".data, "b".data, "Pending".data, "d".data⟩
      (by decide) (by rfl)).2.2⟩

/-- Claim C7: For every store state, `TaskService.search_tasks` with an empty or
whitespace-only keyword returns an empty result sequence without
invoking any repository operation. -/
theorem search_short_circuit (ts : List TaskModel) (keyword : Str)
    (h : pyStrip keyword = []) :
    svc_search_tasks ts keyword = [] ∧ svc_search_tasks_repoCalls keyword = 0 := by
  rw [svc_search_tasks, if_pos (Or.inr h), svc_search_tasks_repoCalls, if_pos (Or.inr h)]
  exact ⟨rfl, rfl⟩

/-- Witness for C7 with a whitespace-only keyword on a non-empty store. -/
theorem search_short_circuit_witness :
    svc_search_tasks [⟨1, "Buy milk".data, "Get 2% milk".data, "Pending".data, "d".data⟩]
        ("  ".data) = [] ∧
      svc_search_tasks_repoCalls ("  ".data) = 0 :=
  search_short_circuit _ _ (by decide)

/-- Claim C8: The GUI store's `search_tasks` returns exactly those records whose
title or description contains the keyword as a case-insensitive
substring, restricted by exact status match when a filter is supplied,
in store order (`List.filter` keeps store order); and a keyword differing
from the stored text only in letter case matches the same records. -/
theorem tm_search_filter_spec (ts : List TaskModel) (keyword : Str)
    (status_filter : Option Str) :
    tm_search_tasks ts keyword status_filter =
      ts.filter (fun t => decide (matchesSpec keyword status_filter t)) ∧
    tm_search_tasks ts (pyLower keyword) status_filter =
      tm_search_tasks ts keyword status_filter := by
  constructor
  · rw [tm_search_tasks, tm_search_loop_eq_filter]
    exact List.filter_congr fun t _ => decide_eq_decide.mpr Iff.rfl
  · rw [tm_search_tasks, tm_search_tasks, pyLower_idem]

/-- Claim C9: The service applies the 50-character title limit to the title as
received, before trimming: any title whose untrimmed length exceeds 50
characters is rejected with a validation error and persists nothing. -/
theorem title_limit_pretrim (ts : List TaskModel) (title description now : Str)
    (h : 50 < title.length) :
    (∃ msg, (svc_add_task ts title description now).2 = .err (.validation msg)) ∧
    (svc_add_task ts title description now).1 = ts := by
  by_cases ha : pyStrip title = []
  · rw [svc_add_task, if_pos (Or.inr ha)]
    exact ⟨⟨_, rfl⟩, rfl⟩
  · rw [svc_add_task, if_neg ((not_congr (strip_cond_iff title)).mpr ha), if_pos h]
    exact ⟨⟨_, rfl⟩, rfl⟩

/-- Witness for C9: 46 letters plus 5 trailing blanks is 51 characters
untrimmed but 46 trimmed, and is still rejected. -/
theorem title_limit_pretrim_witness :
    50 < (List.replicate 46 'a' ++ "     ".data).length ∧
    (pyStrip (List.replicate 46 'a' ++ "     ".data)).length ≤ 50 ∧
    (∃ msg, (svc_add_task [] (List.replicate 46 'a' ++ "     ".data)
      ("x".data) ("n".data)).2 = .err (.validation msg)) ∧
    (svc_add_task [] (List.replicate 46 'a' ++ "     ".data)
      ("x".data) ("n".data)).1 = [] :=
  ⟨by decide, by decide,
    title_limit_pretrim [] (List.replicate 46 'a' ++ "     ".data)
      ("x".data) ("n".data) (by decide)⟩

/-- Claim C10: `TaskService.search_tasks` trims the keyword before matching:
for every store state and every keyword that is not whitespace-only,
searching with the keyword surrounded by leading or trailing whitespace
returns the same result sequence as searching with the trimmed keyword. -/
theorem search_trims_keyword (ts : List TaskModel) (keyword w1 w2 : Str)
    (hw1 : ∀ c ∈ w1, isPySpace c = true) (hw2 : ∀ c ∈ w2, isPySpace c = true)
    (hk : pyStrip keyword ≠ []) :
    svc_search_tasks ts (w1 ++ keyword ++ w2) =
      svc_search_tasks ts (pyStrip keyword) := by
  have hpad : pyStrip (w1 ++ keyword ++ w2) = pyStrip keyword :=
    pyStrip_pad w1 keyword w2 hw1 hw2
  have hlow : pyStrip (pyLower (w1 ++ keyword ++ w2)) = pyStrip (pyLower keyword) := by
    rw [pyLower_append, pyLower_append]
    exact pyStrip_pad _ _ _ (pyLower_space w1 hw1) (pyLower_space w2 hw2)
  obtain ⟨u, v, hu, hv, hdecomp⟩ := pyStrip_decomp keyword
  have hlow2 : pyStrip (pyLower (pyStrip keyword)) = pyStrip (pyLower keyword) := by
    conv_rhs => rw [hdecomp]
    rw [pyLower_append, pyLower_append]
    rw [pyStrip_pad _ _ _ (pyLower_space u hu) (pyLower_space v hv)]
  rw [svc_search_tasks, svc_search_tasks,
    if_neg ((not_congr (strip_cond_iff _)).mpr (by rw [hpad]; exact hk)),
    if_neg ((not_congr (strip_cond_iff _)).mpr (by rw [pyStrip_idem]; exact hk)),
    hlow, hlow2]

/-- Witness for C10: searching `" MILK  "` equals searching the trimmed
`"MILK"` on a one-record store. -/
theorem search_trims_keyword_witness :
    svc_search_tasks [⟨1, "Buy milk".data, "Get 2% milk".data, "Pending".data, "d".data⟩]
        (" ".data ++ "MILK".data ++ "  ".data) =
      svc_search_tasks [⟨1, "Buy milk".data, "Get 2% milk".data, "Pending".data, "d".data⟩]
        (pyStrip ("MILK".data)) :=
  search_trims_keyword _ ("MILK".data) (" ".data) ("  ".data)
    (by decide) (by decide) (by decide)

end TaskMgr
